import Mathlib

/-!
Verification of the GAN training core of this repository (gan.py): the
batched execution utility (Gan._run_batch), the model lifecycle
(train/sample gating), the mixture-discriminator training paths, the
ImageGan/UnrolledGan training-loop control flow (early stop), and the
UnrolledGan symbolic unrolling machinery (extract_update_dict and the
graph_replace iteration).

Numeric tensors are modelled as nested arrays over ℚ.  A TensorFlow
session.run on one chunk is modelled as function application, except
that feeding through a key that is not a placeholder (a plain Python
bool, as UnrolledGan stores in self._is_training_ph) is a TypeError,
as in TensorFlow.
-/

namespace AdaGan

/-- Python-level errors surfaced by the modelled code paths. -/
inductive PyError where
  | assertionError (msg : String)
  | valueError (msg : String)
  | typeError (msg : String)
  | nameError (missing : String)
  | keyError (key : String)
  | zeroDivisionError
deriving DecidableEq

/-- A feed-dict key: either a genuine graph placeholder or a plain
Python bool (what UnrolledGan._build_model_internal stores in
self._is_training_ph at line 715 of gan.py). -/
inductive FeedKey where
  | ph (name : String)
  | boolConst (b : Bool)
deriving DecidableEq

/-- n-dimensional arrays, nested-list style (model of numpy ndarray). -/
inductive NDArray (α : Type) where
  | scalar (x : α)
  | arr (elems : List (NDArray α))

/-- Shape of an array, numpy style; the shape of a nested array is read
off its first element (arrays built by the modelled code are never
ragged). -/
def shape {α : Type} : NDArray α → List Nat
  | .scalar _ => []
  | .arr [] => [0]
  | .arr (x :: xs) => (xs.length + 1) :: shape x

/-- Rank (number of axes) of an array: len(a.shape). -/
def ndrank {α : Type} (a : NDArray α) : Nat :=
  (shape a).length

/-- Length of the first axis: len(a) in Python. -/
def numRows {α : Type} : NDArray α → Nat
  | .scalar _ => 0
  | .arr xs => xs.length

/-- Model of numpy np.reshape(res, [-1, 1]) as applied by _run_batch:
a rank-1 vector (n,) becomes a rank-2 column (n, 1); anything else is
left untouched (_run_batch only reshapes when len(res.shape) == 1). -/
def reshapeCol {α : Type} (a : NDArray α) : NDArray α :=
  if ndrank a = 1 then
    match a with
    | .scalar x => .scalar x
    | .arr xs => .arr (xs.map (fun x => .arr [x]))
  else a

/-- Model of numpy atleast_2d, as used implicitly by np.vstack: scalars
become (1,1), rank-1 vectors become a single row (1,n). -/
def atleast2d {α : Type} (a : NDArray α) : NDArray α :=
  if ndrank a ≤ 1 then
    match a with
    | .scalar x => .arr [.arr [.scalar x]]
    | .arr xs => .arr [.arr xs]
  else a

/-- First-axis slices of an array (after atleast2d every array is rank
at least 2, so the .scalar case is never reached by vstack). -/
def topRows {α : Type} : NDArray α → List (NDArray α)
  | .scalar x => [.scalar x]
  | .arr xs => xs

/-- Model of np.vstack: raise on an empty list, lift every block to
rank at least 2, require matching trailing dimensions, and concatenate
along the first axis. -/
def vstack {α : Type} (l : List (NDArray α)) : Except PyError (NDArray α) :=
  match l with
  | [] => .error (.valueError "need at least one array to concatenate")
  | x :: rest =>
    let a := atleast2d x
    let rest2 := rest.map atleast2d
    if rest2.all (fun y => decide ((shape y).tail = (shape a).tail)) then
      .ok (.arr (((a :: rest2).map topRows).flatten))
    else
      .error (.valueError "all the input array dimensions except for the concatenation axis must match exactly")

/-- The chunk slices taken by the loop of Gan._run_batch: bnum chunks,
each of batch size B taken from the current offset, except that the
last iteration (idx == batches_num - 1) takes everything that remains
(feed[idx * batch_size:]). -/
def batchChunks {α : Type} (B : Nat) : Nat → List α → List (List α)
  | 0, _ => []
  | k + 1, rows => (if k = 0 then rows else rows.take B) :: batchChunks B k (rows.drop B)

/-- Does session.run accept this optional second feed key?  A genuine
placeholder (or no second feed at all) is fine; a plain Python bool as
a feed_dict key makes TensorFlow raise a TypeError. -/
def feedableKey : Option FeedKey → Bool
  | some (.boolConst _) => false
  | _ => true

/-- One session.run call of _run_batch on one chunk: the operation is
an opaque function of the data fed through the first placeholder; the
optional second key is checked as a feed_dict key. -/
def sessionRun {α : Type} (f : NDArray α → NDArray α) (ph2 : Option FeedKey)
    (chunk : NDArray α) : Except PyError (NDArray α) :=
  if feedableKey ph2 then .ok (f chunk)
  else .error (.typeError "Cannot interpret feed_dict key as Tensor")

/-- Sequencing of fallible steps: propagate the first error. -/
def exbind {ε α β : Type} (x : Except ε α) (f : α → Except ε β) : Except ε β :=
  match x with
  | .error e => .error e
  | .ok a => f a

/-- The chunk loop of Gan._run_batch: run the operation on every chunk
in order, reshaping rank-1 chunk results to columns, stopping at the
first error. -/
def runChunks {α : Type} (f : NDArray α → NDArray α) (ph2 : Option FeedKey) :
    List (List (NDArray α)) → Except PyError (List (NDArray α))
  | [] => .ok []
  | c :: cs =>
    exbind (sessionRun f ph2 (.arr c)) (fun res =>
      exbind (runChunks f ph2 cs) (fun rest =>
        .ok (reshapeCol res :: rest)))

/-- Gan._run_batch (gan.py lines 90-142) with an optional second
placeholder/feed pair: assert the feed is not a bare scalar, cut it
into ceil(n / B) chunks with the last chunk taking the remainder, run
the operation per chunk, vstack the per-chunk results, and assert the
row count of the result equals the row count of the input. -/
def run_batch2 {α : Type} (f : NDArray α → NDArray α) (ph2 : Option FeedKey)
    (feed : NDArray α) (B : Nat) : Except PyError (NDArray α) :=
  match feed with
  | .scalar _ => .error (.assertionError "Empry feed.")
  | .arr rows =>
    if B = 0 then .error .zeroDivisionError
    else
      exbind (runChunks f ph2 (batchChunks B ((rows.length + B - 1) / B) rows))
        (fun results =>
          exbind (vstack results) (fun result =>
            if numRows result = rows.length then .ok result
            else .error (.assertionError "")))

/-- Gan._run_batch with no second placeholder (the common call form). -/
def run_batch {α : Type} (f : NDArray α → NDArray α) (feed : NDArray α)
    (B : Nat) : Except PyError (NDArray α) :=
  run_batch2 f none feed B

/-- A computation that is applied independently to every point of its
input, as Gan._run_batch assumes of its operation. -/
def pointwise {α : Type} (g : NDArray α → NDArray α) : NDArray α → NDArray α
  | .scalar x => .scalar x
  | .arr xs => .arr (xs.map g)

@[simp]
lemma exbind_ok {ε α β : Type} (a : α) (f : α → Except ε β) :
    exbind (ε := ε) (.ok a) f = f a := rfl

@[simp]
lemma exbind_error {ε α β : Type} (e : ε) (f : α → Except ε β) :
    exbind (β := β) (.error e) f = .error e := rfl

lemma listMapCongr {α β : Type} {f g : α → β} :
    ∀ {l : List α}, (∀ x ∈ l, f x = g x) → l.map f = l.map g := by
  intro l
  induction l with
  | nil => intro _; rfl
  | cons x xs ih =>
    intro h
    simp only [List.map_cons]
    rw [h x (by simp), ih (fun y hy => h y (by simp [hy]))]

lemma flattenMapMap {α β : Type} (p : α → β) :
    ∀ (L : List (List α)), (L.map (List.map p)).flatten = L.flatten.map p := by
  intro L
  induction L with
  | nil => rfl
  | cons b bs ih => simp only [List.map_cons, List.flatten_cons, List.map_append, ih]

lemma ceilMul_ge (n B : Nat) (hB : 0 < B) : n ≤ B * ((n + B - 1) / B) := by
  have h := Nat.div_add_mod (n + B - 1) B
  have hm : (n + B - 1) % B < B := Nat.mod_lt _ hB
  omega

lemma ceilMul_lt (n B : Nat) (hB : 0 < B) : B * ((n + B - 1) / B) < n + B := by
  have h := Nat.div_add_mod (n + B - 1) B
  have hm : (n + B - 1) % B < B := Nat.mod_lt _ hB
  omega

lemma batchChunks_flatten {α : Type} (B : Nat) (hB : 0 < B) :
    ∀ (bnum : Nat) (rows : List α),
      rows.length ≤ B * bnum → B * bnum < rows.length + B →
      (batchChunks B bnum rows).flatten = rows := by
  intro bnum
  induction bnum with
  | zero =>
    intro rows h1 _
    have hrows : rows = [] := List.length_eq_zero.mp (by omega)
    rw [hrows]
    rfl
  | succ k ih =>
    intro rows h1 h2
    have hms : B * (k + 1) = B * k + B := Nat.mul_succ B k
    by_cases hk : k = 0
    · subst hk
      simp [batchChunks]
    · have hk1 : 1 ≤ k := Nat.one_le_iff_ne_zero.mpr hk
      have hBk : B * 1 ≤ B * k := Nat.mul_le_mul_left B hk1
      have hld : (rows.drop B).length = rows.length - B := List.length_drop B rows
      simp only [batchChunks, if_neg hk, List.flatten_cons]
      rw [ih (rows.drop B) (by omega) (by omega)]
      exact List.take_append_drop B rows

lemma batchChunks_ne_nil {α : Type} (B : Nat) (hB : 0 < B) :
    ∀ (bnum : Nat) (rows : List α),
      rows.length ≤ B * bnum → B * bnum < rows.length + B →
      ∀ c ∈ batchChunks B bnum rows, c ≠ [] := by
  intro bnum
  induction bnum with
  | zero => intro rows _ _ c hc; simp [batchChunks] at hc
  | succ k ih =>
    intro rows h1 h2 c hc
    have hms : B * (k + 1) = B * k + B := Nat.mul_succ B k
    simp only [batchChunks, List.mem_cons] at hc
    rcases hc with hc | hc
    · by_cases hk : k = 0
      · subst hk
        simp only [if_pos rfl] at hc
        subst hc
        exact List.ne_nil_of_length_pos (by omega)
      · have hk1 : 1 ≤ k := Nat.one_le_iff_ne_zero.mpr hk
        have hBk : B * 1 ≤ B * k := Nat.mul_le_mul_left B hk1
        simp only [if_neg hk] at hc
        subst hc
        have hlen : 0 < (rows.take B).length := by
          rw [List.length_take]
          omega
        exact List.ne_nil_of_length_pos hlen
    · by_cases hk : k = 0
      · subst hk
        simp [batchChunks] at hc
      · have hk1 : 1 ≤ k := Nat.one_le_iff_ne_zero.mpr hk
        have hBk : B * 1 ≤ B * k := Nat.mul_le_mul_left B hk1
        have hld : (rows.drop B).length = rows.length - B := List.length_drop B rows
        exact ih (rows.drop B) (by omega) (by omega) c hc

lemma batchChunks_mem_mem {α : Type} (B : Nat) (hB : 0 < B)
    (bnum : Nat) (rows : List α)
    (h1 : rows.length ≤ B * bnum) (h2 : B * bnum < rows.length + B)
    {c : List α} (hc : c ∈ batchChunks B bnum rows) {x : α} (hx : x ∈ c) :
    x ∈ rows := by
  have hflat := batchChunks_flatten B hB bnum rows h1 h2
  rw [← hflat]
  exact List.mem_flatten.mpr ⟨c, hc, hx⟩

lemma shape_arr_uniform {α : Type} (b : List (NDArray α)) (s : List Nat)
    (hb : b ≠ []) (h : ∀ x ∈ b, shape x = s) :
    shape (NDArray.arr b) = b.length :: s := by
  cases b with
  | nil => exact absurd rfl hb
  | cons x xs =>
    simp only [shape, List.length_cons]
    rw [h x (by simp)]

lemma atleast2d_of_rank {α : Type} (a : NDArray α) (h : 2 ≤ ndrank a) :
    atleast2d a = a := by
  unfold atleast2d
  rw [if_neg (by omega)]

lemma reshapeCol_of_rank {α : Type} (a : NDArray α) (h : ndrank a ≠ 1) :
    reshapeCol a = a := by
  unfold reshapeCol
  rw [if_neg h]

lemma vstack_blocks {α : Type} (blocks : List (List (NDArray α))) (s : List Nat)
    (hne : blocks ≠ []) (hbne : ∀ b ∈ blocks, b ≠ [])
    (hsh : ∀ b ∈ blocks, ∀ x ∈ b, shape x = s) (hs0 : s ≠ []) :
    vstack (blocks.map (fun b => NDArray.arr b)) = .ok (.arr blocks.flatten) := by
  have hshape : ∀ b ∈ blocks, shape (NDArray.arr b) = b.length :: s :=
    fun b hb => shape_arr_uniform b s (hbne b hb) (hsh b hb)
  have hslen : 1 ≤ s.length := by
    cases s with
    | nil => exact absurd rfl hs0
    | cons t ts => simp
  have hid : ∀ b ∈ blocks, atleast2d (NDArray.arr b) = NDArray.arr b := by
    intro b hb
    refine atleast2d_of_rank _ ?_
    rw [ndrank, hshape b hb]
    simp only [List.length_cons]
    omega
  cases blocks with
  | nil => exact absurd rfl hne
  | cons b bs =>
    simp only [List.map_cons, vstack]
    rw [hid b (by simp)]
    have hrest : (bs.map (fun b => NDArray.arr b)).map atleast2d
        = bs.map (fun b => NDArray.arr b) := by
      rw [List.map_map]
      exact listMapCongr (fun c hc => hid c (by simp [hc]))
    rw [hrest]
    rw [if_pos ?hall]
    case hall =>
      refine List.all_eq_true.mpr ?_
      intro y hy
      simp only [List.mem_map] at hy
      obtain ⟨b2, hb2, rfl⟩ := hy
      refine decide_eq_true ?_
      rw [hshape b2 (by simp [hb2]), hshape b (by simp)]
      rfl
    congr 1
    simp only [List.map_cons, List.map_map]
    have htop : bs.map (topRows ∘ fun b => NDArray.arr b) = bs := by
      have : ∀ c ∈ bs, (topRows ∘ fun b => NDArray.arr b) c = id c := by
        intro c _
        rfl
      rw [listMapCongr this, List.map_id]
    rw [htop]
    simp [topRows]

lemma runChunks_ok {α : Type} (f : NDArray α → NDArray α) (ph2 : Option FeedKey)
    (hph : feedableKey ph2 = true) :
    ∀ cs : List (List (NDArray α)),
      runChunks f ph2 cs = .ok (cs.map (fun c => reshapeCol (f (.arr c)))) := by
  intro cs
  induction cs with
  | nil => rfl
  | cons c cs ih =>
    simp [runChunks, sessionRun, hph, ih]

/-- Core refinement fact for Gan._run_batch: if the operation acts as a
per-point map whose per-point outputs all have the same non-scalar
shape, then the chunked run returns exactly the per-point map of the
whole input. -/
lemma run_batch2_rowmap {α : Type} (f p : NDArray α → NDArray α)
    (ph2 : Option FeedKey) (rows : List (NDArray α)) (s : List Nat) (B : Nat)
    (hB : 0 < B) (hne : rows ≠ []) (hph : feedableKey ph2 = true)
    (hchunk : ∀ c : List (NDArray α), c ≠ [] → (∀ x ∈ c, x ∈ rows) →
      reshapeCol (f (.arr c)) = .arr (c.map p))
    (hp : ∀ r ∈ rows, shape (p r) = s) (hs0 : s ≠ []) :
    run_batch2 f ph2 (.arr rows) B = .ok (.arr (rows.map p)) := by
  have h1 : rows.length ≤ B * ((rows.length + B - 1) / B) :=
    ceilMul_ge rows.length B hB
  have h2 : B * ((rows.length + B - 1) / B) < rows.length + B :=
    ceilMul_lt rows.length B hB
  have hflat : (batchChunks B ((rows.length + B - 1) / B) rows).flatten = rows :=
    batchChunks_flatten B hB _ rows h1 h2
  have hcne : ∀ c ∈ batchChunks B ((rows.length + B - 1) / B) rows, c ≠ [] :=
    batchChunks_ne_nil B hB _ rows h1 h2
  have hcmem : ∀ c ∈ batchChunks B ((rows.length + B - 1) / B) rows,
      ∀ x ∈ c, x ∈ rows :=
    fun c hc x hx => batchChunks_mem_mem B hB _ rows h1 h2 hc hx
  have hchne : batchChunks B ((rows.length + B - 1) / B) rows ≠ [] := by
    intro hempty
    rw [hempty] at hflat
    exact hne hflat.symm
  simp only [run_batch2, if_neg hB.ne']
  rw [runChunks_ok f ph2 hph]
  have hmap : (batchChunks B ((rows.length + B - 1) / B) rows).map
        (fun c => reshapeCol (f (.arr c)))
      = ((batchChunks B ((rows.length + B - 1) / B) rows).map (List.map p)).map
        (fun b => NDArray.arr b) := by
    rw [List.map_map]
    exact listMapCongr (fun c hc => hchunk c (hcne c hc) (hcmem c hc))
  rw [hmap, exbind_ok]
  rw [vstack_blocks _ s ?bne ?bbne ?bsh hs0]
  case bne =>
    intro hempty
    exact hchne (List.map_eq_nil_iff.mp hempty)
  case bbne =>
    intro b hb
    simp only [List.mem_map] at hb
    obtain ⟨c, hc, rfl⟩ := hb
    intro hmapnil
    exact hcne c hc (List.map_eq_nil_iff.mp hmapnil)
  case bsh =>
    intro b hb x hx
    simp only [List.mem_map] at hb
    obtain ⟨c, hc, rfl⟩ := hb
    simp only [List.mem_map] at hx
    obtain ⟨r, hr, rfl⟩ := hx
    exact hp r (hcmem c hc r hr)
  rw [flattenMapMap, hflat, exbind_ok]
  rw [if_pos (by simp [numRows])]

lemma reshapeCol_pointwise_chunk {α : Type} (g : NDArray α → NDArray α)
    (s : List Nat) (hs0 : s ≠ []) (c : List (NDArray α)) (hc : c ≠ [])
    (hsh : ∀ x ∈ c, shape (g x) = s) :
    reshapeCol (pointwise g (.arr c)) = .arr (c.map g) := by
  show reshapeCol (.arr (c.map g)) = _
  refine reshapeCol_of_rank _ ?_
  have hmn : c.map g ≠ [] := fun h => hc (List.map_eq_nil_iff.mp h)
  have hsa : shape (NDArray.arr (c.map g)) = (c.map g).length :: s := by
    refine shape_arr_uniform _ s hmn ?_
    intro x hx
    obtain ⟨r, hr, rfl⟩ := List.mem_map.mp hx
    exact hsh r hr
  have hsl : 1 ≤ s.length := by
    cases s with
    | nil => exact absurd rfl hs0
    | cons t ts => simp
  rw [ndrank, hsa]
  simp only [List.length_cons]
  omega

lemma reshapeCol_scalar_chunk {α : Type} (g : NDArray α → α)
    (c : List (NDArray α)) (hc : c ≠ []) :
    reshapeCol (pointwise (fun r => .scalar (g r)) (.arr c))
      = .arr (c.map (fun r => .arr [.scalar (g r)])) := by
  show reshapeCol (.arr (c.map fun r => .scalar (g r))) = _
  unfold reshapeCol
  rw [if_pos ?hrank]
  case hrank =>
    cases c with
    | nil => exact absurd rfl hc
    | cons x xs => rfl
  simp [List.map_map]

lemma ndrank_arr_pos {α : Type} (xs : List (NDArray α)) :
    1 ≤ ndrank (NDArray.arr xs) := by
  cases xs with
  | nil => simp [ndrank, shape]
  | cons y ys => simp [ndrank, shape]

lemma atleast2d_first_rows {α : Type} (a : NDArray α) :
    ∃ hd tl, topRows (atleast2d a) = hd :: tl ∧ 1 ≤ ndrank hd := by
  unfold atleast2d
  by_cases h : ndrank a ≤ 1
  · rw [if_pos h]
    cases a with
    | scalar x =>
      exact ⟨.arr [.scalar x], [], rfl, by simp [ndrank, shape]⟩
    | arr xs =>
      exact ⟨.arr xs, [], rfl, ndrank_arr_pos xs⟩
  · rw [if_neg h]
    cases a with
    | scalar x => exact absurd (by simp [ndrank, shape]) h
    | arr xs =>
      cases xs with
      | nil => exact absurd (by simp [ndrank, shape]) h
      | cons y ys =>
        refine ⟨y, ys, rfl, ?_⟩
        have : ndrank (NDArray.arr (y :: ys)) = 1 + ndrank y := by
          simp [ndrank, shape]
          omega
        omega

lemma vstack_rank {α : Type} (l : List (NDArray α)) (r : NDArray α)
    (h : vstack l = .ok r) : 2 ≤ ndrank r := by
  cases l with
  | nil => simp [vstack] at h
  | cons x rest =>
    simp only [vstack] at h
    by_cases hall : (rest.map atleast2d).all
        (fun y => decide ((shape y).tail = (shape (atleast2d x)).tail)) = true
    · rw [if_pos hall] at h
      obtain ⟨hd, tl, htop, hrank⟩ := atleast2d_first_rows x
      have hr : r = .arr (hd :: (tl ++ (((rest.map atleast2d).map topRows).flatten))) := by
        have := h
        injection this with h2
        rw [← h2]
        simp [htop]
      rw [hr]
      have : ndrank (NDArray.arr (hd :: (tl ++ ((rest.map atleast2d).map topRows).flatten)))
          = 1 + ndrank hd := by
        simp [ndrank, shape]
        omega
      omega
    · rw [if_neg hall] at h
      simp at h

/-- C1: for every input with N ≥ 1 rows and every chunk size B ≥ 1,
Gan._run_batch returns the unchunked evaluation of the same computation
on the whole input (hence exactly N rows, in original order), for a
computation that is applied independently to every row with a uniform
non-scalar per-row output shape. -/
theorem claim1_run_batch_transparent {α : Type} (g : NDArray α → NDArray α)
    (rows : List (NDArray α)) (s : List Nat) (B : Nat)
    (hB : 0 < B) (hne : rows ≠ [])
    (hshape : ∀ r ∈ rows, shape (g r) = s) (hs0 : s ≠ []) :
    run_batch (pointwise g) (.arr rows) B = .ok (pointwise g (.arr rows))
    ∧ numRows (pointwise g (.arr rows)) = rows.length := by
  constructor
  · show run_batch2 (pointwise g) none (.arr rows) B = _
    have hres := run_batch2_rowmap (pointwise g) g none rows s B hB hne rfl
      (fun c hc hmem => reshapeCol_pointwise_chunk g s hs0 c hc
        (fun x hx => hshape x (hmem x hx)))
      hshape hs0
    rw [hres]
    rfl
  · simp [pointwise, numRows]

/-- C1 witness: three rows, chunk size two (so the last chunk takes the
remainder), per-row computation wrapping the row in a singleton. -/
theorem claim1_run_batch_transparent_witness :
    run_batch (pointwise (fun r => .arr [r]))
        (NDArray.arr [NDArray.scalar (3 : ℚ), NDArray.scalar 5, NDArray.scalar 7]) 2
      = .ok (pointwise (fun r => .arr [r])
          (NDArray.arr [NDArray.scalar (3 : ℚ), NDArray.scalar 5, NDArray.scalar 7]))
    ∧ numRows (pointwise (fun r => .arr [r])
        (NDArray.arr [NDArray.scalar (3 : ℚ), NDArray.scalar 5, NDArray.scalar 7])) = 3 :=
  claim1_run_batch_transparent (fun r => .arr [r]) _ [1] 2 (by decide)
    (by simp) (by intro r hr; fin_cases hr <;> rfl) (by decide)

/-- C8: a zero-length input (empty first dimension) makes Gan._run_batch
raise an error instead of returning a result: with a positive chunk size
the loop body never runs and np.vstack raises on the empty result list,
and chunk size zero raises a ZeroDivisionError. -/
theorem claim8_run_batch_empty_raises {α : Type} (f : NDArray α → NDArray α)
    (ph2 : Option FeedKey) (B : Nat) :
    ∃ e, run_batch2 f ph2 (.arr []) B = .error e := by
  by_cases hB : B = 0
  · exact ⟨.zeroDivisionError, by simp [run_batch2, hB]⟩
  · refine ⟨.valueError "need at least one array to concatenate", ?_⟩
    simp only [run_batch2, if_neg hB, List.length_nil]
    have hdiv : (0 + B - 1) / B = 0 := Nat.div_eq_of_lt (by omega)
    rw [hdiv]
    rfl

/-- C7 counterexample: a per-chunk result of rank 3 (one point whose
output is a 1 by 1 by 1 tensor) passes through Gan._run_batch untouched,
so the returned array has rank 3, not rank 2: the output is only
guaranteed rank 2 when the per-chunk results have rank at most 2. -/
theorem claim7_rank_counterexample :
    run_batch (fun _ => NDArray.arr [NDArray.arr [NDArray.arr [NDArray.scalar (0 : ℚ)]]])
        (NDArray.arr [NDArray.scalar (0 : ℚ)]) 1
      = .ok (NDArray.arr [NDArray.arr [NDArray.arr [NDArray.scalar (0 : ℚ)]]])
    ∧ ndrank (NDArray.arr [NDArray.arr [NDArray.arr [NDArray.scalar (0 : ℚ)]]]) ≠ 2 :=
  ⟨rfl, by decide⟩

/-- C7 (amended): rank-1 per-chunk results are reshaped to rank-2 column
vectors before concatenation (so a scalar-per-point computation yields
the column of its per-point values), and every result Gan._run_batch
returns has rank at least 2 — but not always exactly 2: higher-rank
per-chunk results keep their rank. -/
theorem claim7_rank_amended {α : Type} :
    (∀ (f : NDArray α → NDArray α) (ph2 : Option FeedKey) (feed : NDArray α)
        (B : Nat) (res : NDArray α),
      run_batch2 f ph2 feed B = .ok res → 2 ≤ ndrank res)
    ∧ (∀ (g : NDArray α → α) (rows : List (NDArray α)) (B : Nat),
        0 < B → rows ≠ [] →
        run_batch (pointwise (fun r => .scalar (g r))) (.arr rows) B
          = .ok (.arr (rows.map (fun r => .arr [.scalar (g r)])))) := by
  constructor
  · intro f ph2 feed B res h
    cases feed with
    | scalar x => simp [run_batch2] at h
    | arr rows =>
      by_cases hB : B = 0
      · simp [run_batch2, hB] at h
      · simp only [run_batch2, if_neg hB] at h
        cases hrc : runChunks f ph2 (batchChunks B ((rows.length + B - 1) / B) rows) with
        | error e => rw [hrc] at h; simp [exbind] at h
        | ok results =>
          rw [hrc, exbind_ok] at h
          cases hv : vstack results with
          | error e => rw [hv] at h; simp [exbind] at h
          | ok r2 =>
            rw [hv, exbind_ok] at h
            by_cases hlen : numRows r2 = rows.length
            · rw [if_pos hlen] at h
              injection h with h2
              rw [← h2]
              exact vstack_rank results r2 hv
            · rw [if_neg hlen] at h
              simp at h
  · intro g rows B hB hne
    show run_batch2 _ none _ B = _
    exact run_batch2_rowmap (pointwise (fun r => .scalar (g r)))
      (fun r => .arr [.scalar (g r)]) none rows [1] B hB hne rfl
      (fun c hc _ => reshapeCol_scalar_chunk g c hc)
      (fun r _ => rfl) (by decide)

/-- C7 amended witness: a pointwise computation yielding one-element
rows produces a rank-2 result through Gan._run_batch. -/
theorem claim7_rank_amended_witness :
    2 ≤ ndrank (NDArray.arr [NDArray.arr [NDArray.scalar (4 : ℚ)]]) :=
  (claim7_rank_amended (α := ℚ)).1 (pointwise (fun r => .arr [r])) none
    (.arr [.scalar 4]) 1 (.arr [.arr [.scalar 4]]) rfl

/-- Model state of the Gan base class: the subclass internals are
delegated to, so only the trained flag is modelled here; the internals
enter the wrappers below as the values they compute. -/
structure GanModel where
  trained : Bool

/-- Gan.train (gan.py lines 67-73): run the subclass train internal;
only normal completion sets the trained flag (an error propagates and
leaves the flag unset). -/
def GanModel.train (g : GanModel) (train_internal : Except PyError Unit) :
    Except PyError GanModel :=
  match train_internal with
  | .ok _ => .ok { g with trained := true }
  | .error e => .error e

/-- Gan.sample (gan.py lines 75-81): assert the trained flag, then
delegate to the subclass sample internal. -/
def GanModel.sample (g : GanModel)
    (sample_internal : Except PyError (NDArray ℚ)) : Except PyError (NDArray ℚ) :=
  if g.trained then sample_internal
  else .error (.assertionError "Can not sample from the un-trained GAN")

/-- Gan.train_mixture_discriminator (gan.py lines 83-88): delegates
directly to the subclass internal, with no check of the trained flag. -/
def GanModel.train_mixture_discriminator (g : GanModel)
    (internal : Except PyError (NDArray ℚ)) : Except PyError (NDArray ℚ) :=
  internal

/-- utils.generate_noise(opts, num): num fresh latent vectors, one row
per index, from an abstract noise source. -/
def generateNoise (noiseSrc : Nat → NDArray ℚ) (num : Nat) : NDArray ℚ :=
  .arr ((List.range num).map noiseSrc)

/-- ToyGan._sample_internal (gan.py lines 315-323): generate num latent
vectors and map them through the generator via _run_batch, with no
second placeholder. -/
def toy_sample_internal (G : NDArray ℚ → NDArray ℚ) (noiseSrc : Nat → NDArray ℚ)
    (num B : Nat) : Except PyError (NDArray ℚ) :=
  run_batch G (generateNoise noiseSrc num) B

/-- UnrolledGan._sample_internal (gan.py lines 875-885): identical to
the toy variant — the is_training pair of _run_batch is commented out,
so the mode flag is omitted from the feed entirely. -/
def unrolled_sample_internal (G : NDArray ℚ → NDArray ℚ)
    (noiseSrc : Nat → NDArray ℚ) (num B : Nat) : Except PyError (NDArray ℚ) :=
  run_batch2 G none (generateNoise noiseSrc num) B

/-- C4: sample before train has completed raises the precondition
assertion; train completing normally sets the trained flag, after which
sample returns the generator mapped over num fresh latent vectors
through BatchRunner, with exactly num rows. -/
theorem claim4_sample_gated_by_train (g : GanModel) (gp : NDArray ℚ → NDArray ℚ)
    (noiseSrc : Nat → NDArray ℚ) (num B : Nat) (s : List Nat) :
    (g.trained = false →
      GanModel.sample g (toy_sample_internal (pointwise gp) noiseSrc num B)
        = .error (.assertionError "Can not sample from the un-trained GAN"))
    ∧ (∀ (ti : Except PyError Unit) (g2 : GanModel),
        GanModel.train g ti = .ok g2 → g2.trained = true)
    ∧ ((∀ r, shape (gp r) = s) → s ≠ [] → 0 < num → 0 < B →
        ∀ g2 : GanModel, g2.trained = true →
        GanModel.sample g2 (toy_sample_internal (pointwise gp) noiseSrc num B)
          = .ok (.arr (((List.range num).map noiseSrc).map gp))
        ∧ numRows (.arr (((List.range num).map noiseSrc).map gp)) = num) := by
  refine ⟨?_, ?_, ?_⟩
  · intro h
    simp [GanModel.sample, h]
  · intro ti g2 h
    cases ti with
    | ok u =>
      simp only [GanModel.train] at h
      injection h with h2
      rw [← h2]
    | error e => simp [GanModel.train] at h
  · intro hs hs0 hnum hB g2 h2
    have hrows : ((List.range num).map noiseSrc) ≠ [] := by
      intro hq
      have hlen : ((List.range num).map noiseSrc).length = num := by simp
      rw [hq] at hlen
      simp at hlen
      omega
    constructor
    · simp only [GanModel.sample, h2, if_true]
      show run_batch2 (pointwise gp) none (.arr ((List.range num).map noiseSrc)) B = _
      exact run_batch2_rowmap (pointwise gp) gp none _ s B hB hrows rfl
        (fun c hc hmem => reshapeCol_pointwise_chunk gp s hs0 c hc (fun x _ => hs x))
        (fun r _ => hs r) hs0
    · simp [numRows]

/-- C4 witness: an untrained model refuses to sample; a trained one
returns two generated rows for num = 2. -/
theorem claim4_sample_gated_by_train_witness :
    GanModel.sample ⟨false⟩
        (toy_sample_internal (pointwise (fun _ => .arr [.scalar (0 : ℚ)]))
          (fun _ => .scalar 0) 2 1)
      = .error (.assertionError "Can not sample from the un-trained GAN")
    ∧ GanModel.sample ⟨true⟩
        (toy_sample_internal (pointwise (fun _ => .arr [.scalar (0 : ℚ)]))
          (fun _ => .scalar 0) 2 1)
      = .ok (.arr (((List.range 2).map (fun _ => NDArray.scalar (0 : ℚ))).map
          (fun _ => .arr [.scalar (0 : ℚ)]))) :=
  ⟨(claim4_sample_gated_by_train ⟨false⟩ (fun _ => .arr [.scalar 0])
      (fun _ => .scalar 0) 2 1 [1]).1 rfl,
   ((claim4_sample_gated_by_train ⟨false⟩ (fun _ => .arr [.scalar 0])
      (fun _ => .scalar 0) 2 1 [1]).2.2 (fun _ => rfl) (by decide) (by decide)
      (by decide) ⟨true⟩ rfl).1⟩

/-- C9: unlike sample, train_mixture_discriminator performs no check of
the trained flag: on an untrained model it proceeds directly to the
classifier-training internal while sample raises. -/
theorem claim9_mixture_not_gated (g : GanModel)
    (internal si : Except PyError (NDArray ℚ)) (h : g.trained = false) :
    GanModel.train_mixture_discriminator g internal = internal
    ∧ GanModel.sample g si
        = .error (.assertionError "Can not sample from the un-trained GAN") :=
  ⟨rfl, by simp [GanModel.sample, h]⟩

/-- C9 witness: a fresh (untrained) model instance. -/
theorem claim9_mixture_not_gated_witness :
    GanModel.train_mixture_discriminator ⟨false⟩ (.ok (.arr [.scalar (1 : ℚ)]))
      = .ok (.arr [.scalar (1 : ℚ)])
    ∧ GanModel.sample ⟨false⟩ (.ok (.arr [.scalar (1 : ℚ)]))
      = .error (.assertionError "Can not sample from the un-trained GAN") :=
  claim9_mixture_not_gated ⟨false⟩ (.ok (.arr [.scalar 1])) (.ok (.arr [.scalar 1])) rfl

/-- Mixture-discriminator training internal, common to the three
variants (gan.py lines 325-350, 602-629, 887-914); ph2eval is the
optional second feed pair of the final _run_batch evaluation (absent in
the toy variant, the is_train placeholder in the image variant, the
Python constant True in the unrolled variant).  The loop over
mixture_c_epoch_num epochs of num_points / batch_size minibatches only
mutates classifier parameters inside the session — the returned value
depends on them only through the trained classifier map c_training,
which is a parameter here — but the loop raises on its first iteration
if np.random.choice must draw batch_size distinct fake indices from
fewer than batch_size fake images, and Python integer division raises
if batch_size is zero. -/
def mixture_internal (ph2eval : Option FeedKey)
    (batch_size mixture_c_epoch_num tf_run_batch_size num_points : Nat)
    (data fake_images : List (NDArray ℚ))
    (c_training : NDArray ℚ → NDArray ℚ) : Except PyError (NDArray ℚ) :=
  if batch_size = 0 then .error .zeroDivisionError
  else if 0 < mixture_c_epoch_num * (num_points / batch_size)
      ∧ fake_images.length < batch_size then
    .error (.valueError "Cannot take a larger sample than population when replace=False")
  else
    run_batch2 c_training ph2eval (.arr data) tf_run_batch_size

/-- ToyGan._train_mixture_discriminator_internal: final evaluation has
no second feed pair. -/
def toy_mixture_internal := mixture_internal none

/-- ImageGan._train_mixture_discriminator_internal: final evaluation
feeds False through the is_train placeholder. -/
def image_mixture_internal := mixture_internal (some (.ph "is_train"))

/-- UnrolledGan._train_mixture_discriminator_internal: final evaluation
feeds False through self._is_training_ph, which is the Python constant
True in this variant. -/
def unrolled_mixture_internal := mixture_internal (some (.boolConst true))

/-- tf.nn.sigmoid on one logit; the engine evaluation of exp is a
parameter, and only its positivity is used. -/
def sigm (cexp : ℚ → ℚ) (x : ℚ) : ℚ := 1 / (1 + cexp (-x))

lemma sigm_mem_unit (cexp : ℚ → ℚ) (hpos : ∀ y, 0 < cexp y) (x : ℚ) :
    0 ≤ sigm cexp x ∧ sigm cexp x ≤ 1 := by
  have h1 : (0 : ℚ) < 1 + cexp (-x) := by
    have := hpos (-x)
    linarith
  constructor
  · exact div_nonneg zero_le_one (le_of_lt h1)
  · rw [sigm, div_le_one h1]
    have := hpos (-x)
    linarith

/-- C5 counterexample: a non-empty fake_images (one point) with
batch_size two and a dataset of two points makes the mixture training
loop raise inside np.random.choice instead of returning probabilities. -/
theorem claim5_mixture_counterexample :
    toy_mixture_internal 2 1 1 2 [NDArray.scalar (0 : ℚ), NDArray.scalar 0]
        [NDArray.scalar (0 : ℚ)]
        (pointwise (fun _ => .arr [.scalar (1 / 2 : ℚ)]))
      = .error (.valueError "Cannot take a larger sample than population when replace=False") :=
  rfl

/-- C5 (amended): when fake_images holds at least batch_size points (so
the without-replacement minibatch draw succeeds), both the toy and the
image variant of train_mixture_discriminator return one classifier
probability per real data point, in dataset order, with length equal to
num_points, and every returned value lies in [0, 1]. -/
theorem claim5_mixture_probs (batch_size c_epochs B num_points : Nat)
    (data fake_images : List (NDArray ℚ)) (clogit : NDArray ℚ → ℚ) (cexp : ℚ → ℚ)
    (hbs : 0 < batch_size) (hfa : batch_size ≤ fake_images.length)
    (hdata : data ≠ []) (hlen : data.length = num_points) (hB : 0 < B)
    (hexp : ∀ y, 0 < cexp y) :
    toy_mixture_internal batch_size c_epochs B num_points data fake_images
        (pointwise (fun r => .arr [.scalar (sigm cexp (clogit r))]))
      = .ok (.arr (data.map (fun r => .arr [.scalar (sigm cexp (clogit r))])))
    ∧ image_mixture_internal batch_size c_epochs B num_points data fake_images
        (pointwise (fun r => .arr [.scalar (sigm cexp (clogit r))]))
      = .ok (.arr (data.map (fun r => .arr [.scalar (sigm cexp (clogit r))])))
    ∧ (data.map (fun r => NDArray.arr [NDArray.scalar (sigm cexp (clogit r))])).length
        = num_points
    ∧ (∀ r, 0 ≤ sigm cexp (clogit r) ∧ sigm cexp (clogit r) ≤ 1) := by
  have hnot : ¬(0 < c_epochs * (num_points / batch_size)
      ∧ fake_images.length < batch_size) :=
    fun hcontra => absurd hcontra.2 (not_lt.mpr hfa)
  have hrun : ∀ ph2 : Option FeedKey, feedableKey ph2 = true →
      run_batch2 (pointwise (fun r => .arr [.scalar (sigm cexp (clogit r))])) ph2
          (.arr data) B
        = .ok (.arr (data.map (fun r => .arr [.scalar (sigm cexp (clogit r))]))) := by
    intro ph2 hph
    exact run_batch2_rowmap (pointwise (fun r => .arr [.scalar (sigm cexp (clogit r))]))
      (fun r => .arr [.scalar (sigm cexp (clogit r))])
      ph2 data [1] B hB hdata hph
      (fun c hc _ => reshapeCol_pointwise_chunk _ [1] (by decide) c hc (fun x _ => rfl))
      (fun r _ => rfl) (by decide)
  refine ⟨?_, ?_, ?_, fun r => sigm_mem_unit cexp hexp (clogit r)⟩
  · show mixture_internal none batch_size c_epochs B num_points data fake_images _ = _
    simp only [mixture_internal, if_neg hbs.ne', if_neg hnot]
    exact hrun none rfl
  · show mixture_internal (some (.ph "is_train")) batch_size c_epochs B num_points
      data fake_images _ = _
    simp only [mixture_internal, if_neg hbs.ne', if_neg hnot]
    exact hrun (some (.ph "is_train")) rfl
  · simp [hlen]

/-- C5 amended witness: one real point, one fake point, batch size one. -/
theorem claim5_mixture_probs_witness :
    toy_mixture_internal 1 1 1 1 [NDArray.scalar (0 : ℚ)] [NDArray.scalar (0 : ℚ)]
        (pointwise (fun _ => .arr [.scalar (sigm (fun _ => 1) 0)]))
      = .ok (.arr [.arr [.scalar (sigm (fun _ => 1) 0)]]) :=
  (claim5_mixture_probs 1 1 1 1 [NDArray.scalar 0] [NDArray.scalar 0]
    (fun _ => 0) (fun _ => 1) (by decide) (by decide) (by simp) rfl (by decide)
    (fun _ => one_pos)).1

/-- UnrolledGan._build_model_internal line 715: the training-mode flag
is assigned the Python constant True, not a graph placeholder. -/
def unrolled_is_training_ph : FeedKey := .boolConst true

/-- Feed keys of the discriminator update session.run in
UnrolledGan._train_internal (gan.py lines 842-846): only the real-points
and noise placeholders; the mode flag is omitted. -/
def unrolled_d_optim_feed_keys : List FeedKey := [.ph "real_points", .ph "noise"]

/-- Feed keys of the generator update session.run in
UnrolledGan._train_internal (gan.py lines 848-852). -/
def unrolled_g_optim_feed_keys : List FeedKey := [.ph "real_points", .ph "noise"]

lemma run_batch2_boolconst_key {α : Type} (f : NDArray α → NDArray α) (b : Bool)
    (rows : List (NDArray α)) (B : Nat) (hne : rows ≠ []) (hB : 0 < B) :
    run_batch2 f (some (.boolConst b)) (.arr rows) B
      = .error (.typeError "Cannot interpret feed_dict key as Tensor") := by
  simp only [run_batch2, if_neg hB.ne']
  have h0 : 0 < rows.length := List.length_pos.mpr hne
  have hbn : 0 < (rows.length + B - 1) / B := Nat.div_pos (by omega) hB
  obtain ⟨k, hk⟩ : ∃ k, (rows.length + B - 1) / B = k + 1 :=
    ⟨(rows.length + B - 1) / B - 1, by omega⟩
  rw [hk]
  have hsr : sessionRun f (some (.boolConst b))
      (.arr (if k = 0 then rows else rows.take B))
      = .error (.typeError "Cannot interpret feed_dict key as Tensor") := by
    simp [sessionRun, feedableKey]
  simp only [batchChunks, runChunks, hsr, exbind_error]

/-- C10: in UnrolledGan the training-mode flag is the Python constant
True rather than a placeholder; the mixture-discriminator final
evaluation feeds False through it, so that per-point classifier
evaluation fails with a TypeError for every (non-degenerate) input; the
unrolled sample path and the training-loop feeds omit the mode flag
entirely. -/
theorem claim10_unrolled_mode_flag (data fake_images : List (NDArray ℚ))
    (c_training G : NDArray ℚ → NDArray ℚ) (noiseSrc : Nat → NDArray ℚ)
    (batch_size c_epochs B num_points num : Nat) :
    unrolled_is_training_ph = FeedKey.boolConst true
    ∧ (0 < batch_size → batch_size ≤ fake_images.length → data ≠ [] → 0 < B →
        unrolled_mixture_internal batch_size c_epochs B num_points data
            fake_images c_training
          = .error (.typeError "Cannot interpret feed_dict key as Tensor"))
    ∧ unrolled_sample_internal G noiseSrc num B
        = run_batch2 G none (generateNoise noiseSrc num) B
    ∧ unrolled_is_training_ph ∉ unrolled_d_optim_feed_keys
    ∧ unrolled_is_training_ph ∉ unrolled_g_optim_feed_keys := by
  refine ⟨rfl, ?_, rfl, by decide, by decide⟩
  intro hbs hfa hne hB
  show mixture_internal (some (.boolConst true)) batch_size c_epochs B num_points
    data fake_images c_training = _
  have hnot : ¬(0 < c_epochs * (num_points / batch_size)
      ∧ fake_images.length < batch_size) :=
    fun hcontra => absurd hcontra.2 (not_lt.mpr hfa)
  simp only [mixture_internal, if_neg hbs.ne', if_neg hnot]
  exact run_batch2_boolconst_key c_training true data B hne hB

/-- C10 witness: the unrolled mixture evaluation fails on a one-point
dataset with one fake point. -/
theorem claim10_unrolled_mode_flag_witness :
    unrolled_mixture_internal 1 1 1 1 [NDArray.scalar (0 : ℚ)]
        [NDArray.scalar (0 : ℚ)] (fun a => a)
      = .error (.typeError "Cannot interpret feed_dict key as Tensor") :=
  (claim10_unrolled_mode_flag [NDArray.scalar 0] [NDArray.scalar 0] (fun a => a)
    (fun a => a) (fun _ => NDArray.scalar 0) 1 1 1 1 1).2.1
    (by decide) (by decide) (by simp) (by decide)

/-- One epoch of the inner minibatch loop of ImageGan._train_internal
and UnrolledGan._train_internal (gan.py lines 547-586 and 834-872):
every iteration performs its minibatch updates and increments the
update counter, and only afterwards breaks out of the inner loop when
the early-stop count is positive and the counter exceeds it.  Returns
the number of minibatch iterations performed this epoch. -/
def innerLoopUpdates (early_stop : Int) : Nat → Nat → Nat
  | _, 0 => 0
  | counter, m + 1 =>
    if 0 < early_stop ∧ early_stop < (counter : Int) + 1 then 1
    else 1 + innerLoopUpdates early_stop (counter + 1) m

/-- The outer epoch loop of the same training functions: one inner loop
per epoch, then pbar.bam() unconditionally; returns the final update
counter and the number of bam signals sent. -/
def epochLoop (early_stop : Int) (batches_num : Nat) : Nat → Nat → Nat × Nat
  | 0, counter => (counter, 0)
  | e + 1, counter =>
    let r := epochLoop early_stop batches_num e
      (counter + innerLoopUpdates early_stop counter batches_num)
    (r.1, r.2 + 1)

/-- C6: the epoch loop always signals the progress collaborator exactly
gan_epoch_num times, even after the early-stop cutoff; once the update
counter has reached a positive early-stop count, each epoch runs only
min 1 batches_num minibatch iterations — the inner loop breaks after
its first iteration instead of completing batches_num of them. -/
theorem claim6_early_stop_best_effort (early_stop : Int)
    (batches_num epochs counter : Nat) :
    (epochLoop early_stop batches_num epochs counter).2 = epochs
    ∧ (0 < early_stop → early_stop ≤ (counter : Int) →
        innerLoopUpdates early_stop counter batches_num = min 1 batches_num) := by
  constructor
  · induction epochs generalizing counter with
    | zero => rfl
    | succ e ih => simp [epochLoop, ih]
  · intro hpos hcut
    cases batches_num with
    | zero => rfl
    | succ m =>
      have hcond : 0 < early_stop ∧ early_stop < (counter : Int) + 1 := ⟨hpos, by omega⟩
      simp only [innerLoopUpdates, if_pos hcond]
      rw [Nat.min_eq_left (by omega)]

/-- C6 witness: three epochs of four batches with cutoff two already
passed (counter five): three bam signals, one update per epoch. -/
theorem claim6_early_stop_best_effort_witness :
    (epochLoop 2 4 3 5).2 = 3 ∧ innerLoopUpdates 2 5 4 = min 1 4 :=
  ⟨(claim6_early_stop_best_effort 2 4 3 5).1,
   (claim6_early_stop_best_effort 2 4 3 5).2 (by decide) (by decide)⟩

/-- Symbolic tensor expressions over discriminator parameters — the
fragment needed for the unrolled-optimization bookkeeping: parameter
references, constants, negation, addition, multiplication. -/
inductive TExpr where
  | var (n : Nat)
  | const (q : ℚ)
  | neg (e : TExpr)
  | add (a b : TExpr)
  | mul (a b : TExpr)
deriving DecidableEq

/-- Substitution of parameter references — the action of
tf.contrib.graph_editor.graph_replace on one expression: replace every
parameter reference the mapping covers by its image, leave the rest. -/
def substExpr (σ : Nat → Option TExpr) : TExpr → TExpr
  | .var n =>
    match σ n with
    | some e => e
    | none => .var n
  | .const q => .const q
  | .neg e => .neg (substExpr σ e)
  | .add a b => .add (substExpr σ a) (substExpr σ b)
  | .mul a b => .mul (substExpr σ a) (substExpr σ b)

/-- Lookup in an update dictionary (ordered association list keyed by
parameter identity). -/
def lookupDict : List (Nat × TExpr) → Nat → Option TExpr
  | [], _ => none
  | (k, v) :: rest, n => if k = n then some v else lookupDict rest n

/-- Python dict assignment d[k] = v on an ordered dictionary: overwrite
in place when the key exists, else append at the end. -/
def dictInsert (d : List (Nat × TExpr)) (k : Nat) (v : TExpr) : List (Nat × TExpr) :=
  if d.any (fun p => p.1 == k) then
    d.map (fun p => if p.1 = k then (k, v) else p)
  else d ++ [(k, v)]

/-- graph_replace(update_dict, cur_update_dict) as used by the unroll
loop: rebuild the update dictionary, replacing every parameter
reference inside its values by the already-unrolled expression that cur
maps the parameter to. -/
def graphReplaceDict (target cur : List (Nat × TExpr)) : List (Nat × TExpr) :=
  target.map (fun p => (p.1, substExpr (lookupDict cur) p.2))

/-- The loop `for i in xrange(unrolling_steps - 1)` of
UnrolledGan._build_model_internal (gan.py lines 774-777): repeatedly
replace update_dict into the current dictionary. -/
def iterReplace (update_dict : List (Nat × TExpr)) :
    Nat → List (Nat × TExpr) → List (Nat × TExpr)
  | 0, cur => cur
  | k + 1, cur => iterReplace update_dict k (graphReplaceDict update_dict cur)

/-- The generator loss built by UnrolledGan._build_model_internal
(gan.py lines 768-781): for positive unrolling_steps, substitute the
(unrolling_steps - 1)-times re-replaced update dictionary into the
discriminator loss and negate; otherwise just negate the current
discriminator loss. -/
def unrolledGLoss (unrolling_steps : Int) (update_dict : List (Nat × TExpr))
    (d_loss : TExpr) : TExpr :=
  if 0 < unrolling_steps then
    .neg (substExpr
      (lookupDict (iterReplace update_dict (unrolling_steps - 1).toNat update_dict))
      d_loss)
  else
    .neg d_loss

/-- Specification-side view of the unrolling: the substitution mapping
each parameter to its value after k + 1 consecutive update steps — the
single-step update mapping composed with itself k additional times,
each composition substituting parameter references with their
already-unrolled expressions. -/
def specSigma (update_dict : List (Nat × TExpr)) : Nat → Nat → Option TExpr
  | 0 => lookupDict update_dict
  | k + 1 => fun n =>
      (lookupDict update_dict n).map (substExpr (specSigma update_dict k))

lemma lookup_graphReplaceDict (ud cur : List (Nat × TExpr)) (n : Nat) :
    lookupDict (graphReplaceDict ud cur) n
      = (lookupDict ud n).map (substExpr (lookupDict cur)) := by
  induction ud with
  | nil => rfl
  | cons p rest ih =>
    obtain ⟨k, v⟩ := p
    simp only [graphReplaceDict, List.map_cons, lookupDict]
    by_cases h : k = n
    · rw [if_pos h, if_pos h]
      rfl
    · rw [if_neg h, if_neg h]
      exact ih

lemma iterReplace_comm (ud : List (Nat × TExpr)) :
    ∀ (k : Nat) (cur : List (Nat × TExpr)),
      iterReplace ud k (graphReplaceDict ud cur)
        = graphReplaceDict ud (iterReplace ud k cur) := by
  intro k
  induction k with
  | zero => intro cur; rfl
  | succ k ih =>
    intro cur
    show iterReplace ud k (graphReplaceDict ud (graphReplaceDict ud cur)) = _
    rw [ih (graphReplaceDict ud cur)]
    rfl

lemma iterReplace_specSigma (ud : List (Nat × TExpr)) :
    ∀ k : Nat, lookupDict (iterReplace ud k ud) = specSigma ud k := by
  intro k
  induction k with
  | zero => rfl
  | succ k ih =>
    have hcomm : iterReplace ud (k + 1) ud
        = graphReplaceDict ud (iterReplace ud k ud) :=
      iterReplace_comm ud k ud
    funext n
    rw [hcomm, lookup_graphReplaceDict, ih]
    rfl

/-- C2: if unrolling_steps ≤ 0 the generator loss is exactly the
negated discriminator loss with no substitution performed; if
unrolling_steps = K > 0 it is the negated discriminator loss
re-evaluated under the single-step update mapping composed with itself
K - 1 additional times. -/
theorem claim2_unrolled_g_loss (unrolling_steps : Int)
    (update_dict : List (Nat × TExpr)) (d_loss : TExpr) :
    (unrolling_steps ≤ 0 →
      unrolledGLoss unrolling_steps update_dict d_loss = .neg d_loss)
    ∧ (0 < unrolling_steps →
        unrolledGLoss unrolling_steps update_dict d_loss
          = .neg (substExpr (specSigma update_dict (unrolling_steps - 1).toNat)
              d_loss)) := by
  constructor
  · intro h
    simp [unrolledGLoss, not_lt.mpr h]
  · intro h
    simp only [unrolledGLoss, if_pos h]
    rw [iterReplace_specSigma]

/-- C2 witness: two unrolling steps of the update v := v + 1 against
the loss v give the twice-composed substitution. -/
theorem claim2_unrolled_g_loss_witness :
    unrolledGLoss 2 [(0, TExpr.add (TExpr.var 0) (TExpr.const 1))] (TExpr.var 0)
      = TExpr.neg (substExpr
          (specSigma [(0, TExpr.add (TExpr.var 0) (TExpr.const 1))] 1)
          (TExpr.var 0)) :=
  (claim2_unrolled_g_loss 2 [(0, TExpr.add (TExpr.var 0) (TExpr.const 1))]
    (TExpr.var 0)).2 (by decide)

/-- One update op captured from Keras opt.get_updates: its op type
string, the name of the variable it writes (update.op.inputs[0].name),
and the update value expression (update.op.inputs[1]). -/
structure UpdateOp where
  opType : String
  inputVarName : String
  value : TExpr

/-- Lookup in the name_to_var mapping built from tf.global_variables();
a missing name is a Python KeyError. -/
def lookupVar : List (String × Nat) → String → Option Nat
  | [], _ => none
  | (k, v) :: rest, n => if k = n then some v else lookupVar rest n

/-- UnrolledGan.extract_update_dict (gan.py lines 799-821): map each
Assign op to its assigned value and each AssignAdd op to the variable
plus its increment, accumulating an ordered dictionary keyed by the
variable.  On any other op type the source attempts to raise a
ValueError naming the op type, but the message expression reads the
undefined name update_op (the loop variable is named update), so Python
raises a NameError for update_op instead. -/
def extract_update_dict (global_vars : List (String × Nat)) :
    List UpdateOp → List (Nat × TExpr) → Except PyError (List (Nat × TExpr))
  | [], acc => .ok acc
  | u :: rest, acc =>
    match lookupVar global_vars u.inputVarName with
    | none => .error (.keyError u.inputVarName)
    | some v =>
      if u.opType = "Assign" then
        extract_update_dict global_vars rest (dictInsert acc v u.value)
      else if u.opType = "AssignAdd" then
        extract_update_dict global_vars rest
          (dictInsert acc v (.add (.var v) u.value))
      else
        .error (.nameError "update_op")

/-- C3: on Assign and AssignAdd ops the extraction returns the mapping
from each parameter to its post-update value (the assigned value, resp.
the parameter plus the increment); but on any other op type it raises a
NameError for the undefined name update_op — not the intended
unsupported-update ValueError naming the offending op type, because the
message expression in the raise statement misspells the loop
variable. -/
theorem claim3_extract_update_dict_bug :
    extract_update_dict [("w:0", 0), ("b:0", 1)]
        [⟨"Assign", "w:0", TExpr.const 1⟩, ⟨"AssignAdd", "b:0", TExpr.const 2⟩] []
      = .ok [(0, TExpr.const 1), (1, TExpr.add (TExpr.var 1) (TExpr.const 2))]
    ∧ extract_update_dict [("w:0", 0)] [⟨"ScatterSub", "w:0", TExpr.const 1⟩] []
      = .error (.nameError "update_op") :=
  ⟨rfl, rfl⟩

end AdaGan
